import Mathlib

/-!
Verification of the authorized GraphQL query layer of the King Phisher
server (king_phisher/server/graphql.py): authorization middleware,
filter/sort compilation, relay connection resolution with totals, the
DateTime scalar, relay node identity encoding, and GeoLocation lookup.

Python values, rows and models are embedded shallowly.  Exceptions
(ValueError) are embedded as Except String; Python None as Option.none.
Quotation marks inside the original Python error message strings are
elided in the embedded messages.
-/

/-- Values stored in database columns and supplied in filter inputs. -/
inductive Value where
  | int (i : Int)
  | str (s : String)
  | bool (b : Bool)
  | null
deriving DecidableEq

/-- A database row: an attribute assignment, getattr on missing names
yields null (attribute access details are immaterial to the claims). -/
structure Row where
  attrs : List (String × Value)
deriving DecidableEq

def Row.getattr (r : Row) (k : String) : Value :=
  match r.attrs.find? (fun p => p.1 = k) with
  | some p => p.2
  | none => Value.null

/-- Modelled from the spec: the authenticated session (produced outside
this core) is polymorphic over one capability: given a model (by name), a
field name in database naming, and optionally a specific instance, return
a boolean may_read. -/
structure Session where
  may_read : String → String → Option Row → Bool

/-- Modelled from the spec: an entity model of the relational registry
(king_phisher.server.database.models is outside this core) exposes its
table name, a columns() introspection, and the class-level permission
check session_has_read_prop_access. -/
structure Model where
  name : String
  columns : List String

def Model.session_has_read_prop_access (m : Model) (s : Session) (field_name : String)
    (inst : Option Row) : Bool :=
  s.may_read m.name field_name inst

/-- The per-resolution info object: its context dictionary carries the
optional rpc_session and the database session (embedded as a table-name
indexed row store), and field_name names the field being resolved. -/
structure Info where
  rpc_session : Option Session
  field_name : String
  db : String → List Row

/-- AuthorizationMiddleware.info_has_read_prop_access: permission check;
with no rpc_session in the context it returns True.  The Python default
field_name=None falls back to info.field_name via the or operator, so an
empty string also falls back. -/
def AuthorizationMiddleware.info_has_read_prop_access (info : Info) (model : Model)
    (field_name : Option String := none) (inst : Option Row := none) : Bool :=
  match info.rpc_session with
  | none => true
  | some rpc_session =>
      let fn := match field_name with
        | some f => if f = "" then info.field_name else f
        | none => info.field_name
      model.session_has_read_prop_access rpc_session fn inst

/-- The root value a resolver receives: either an entity instance of some
model (isinstance of db_models.Base) or some other plain value. -/
inductive RootVal where
  | entity (model : Model) (row : Row)
  | plain (v : Value)

/-- AuthorizationMiddleware.resolve: if the root is an entity instance and
the session denies reading the resolved field on that instance, return
None without invoking the inner resolver. -/
def AuthorizationMiddleware.resolve (next_ : RootVal → Info → Option Value)
    (root : RootVal) (info : Info) : Option Value :=
  match root with
  | RootVal.entity model row =>
      if ¬ AuthorizationMiddleware.info_has_read_prop_access info model none (some row) then
        none
      else
        next_ root info
  | RootVal.plain _ => next_ root info

/-- Modelled from the spec: smoke_zephyr.utilities.parse_case_camel_to_snake
is outside this core; the spec specifies the camelCase to snake_case
transformation (each inner uppercase letter becomes an underscore followed
by its lowercase form). -/
def camelToSnakeAux : List Char → List Char
  | [] => []
  | c :: cs =>
      if c.isUpper then '_' :: c.toLower :: camelToSnakeAux cs
      else c :: camelToSnakeAux cs

def parse_case_camel_to_snake (s : String) : String :=
  match s.data with
  | [] => ""
  | c :: cs => String.mk (c.toLower :: camelToSnakeAux cs)

/-- FilterInput: recursive input object with optional and / or branches
(both lists of filter inputs), field, value, and operator.  Absent keys of
the underlying argument dictionary are none. -/
inductive FilterInput where
  | mk (AND : Option (List FilterInput)) (OR : Option (List FilterInput))
       (field : Option String) (value : Option Value) (operator : Option String)

/-- SortInput: a required field name and an optional direction. -/
structure SortInput where
  field : String
  direction : Option String
deriving DecidableEq

/-- A compiled SQL predicate as produced by sqlalchemy.and_, sqlalchemy.or_
and the six comparison operators applied to a column and a bound value. -/
inductive SqlFilter where
  | and_ (fs : List SqlFilter)
  | or_ (fs : List SqlFilter)
  | cmp (op : String) (column : String) (value : Option Value)

/-- Python truthiness of a dictionary entry holding an optional list:
absent keys and empty lists are falsy. -/
def isTruthyList {α : Type} : Option (List α) → Bool
  | some (_ :: _) => true
  | _ => false

/-- Python truthiness of a dictionary entry holding an optional string:
absent keys and empty strings are falsy. -/
def isTruthyStr : Option String → Bool
  | some s => if s = "" then false else true
  | none => false

/-- The six comparison operator names accepted by the filter compiler. -/
def validOperatorName (op : String) : Bool :=
  ["eq", "ge", "gt", "le", "lt", "ne"].contains op

/-- The mutual-exclusivity error message raised by the filter compiler. -/
def mutexErrorMsg : String :=
  "the and, or, and field filter operators are mutually exclusive"

mutual

/-- SQLAlchemyConnectionField.__query_filter: compile one filter node.
Precedence is AND, then OR, then field; a second populated branch raises;
a leaf validates the operator (defaulting to eq) and the field name, and
contributes its predicate only when class-level read access is granted. -/
def SQLAlchemyConnectionField.query_filter_core (m : Model) (info : Info) :
    FilterInput → Except String (Option SqlFilter)
  | FilterInput.mk AND OR field value operator => do
    let sf1 : Option SqlFilter ←
      match AND with
      | some (f :: fs) => do
          let children ← SQLAlchemyConnectionField.query_filter_list m info (f :: fs)
          pure (some (SqlFilter.and_ children))
      | _ => pure none
    let sf2 : Option SqlFilter ←
      match OR with
      | some (f :: fs) =>
          if sf1.isSome then
            throw mutexErrorMsg
          else do
            let children ← SQLAlchemyConnectionField.query_filter_list m info (f :: fs)
            pure (some (SqlFilter.or_ children))
      | _ => pure sf1
    match field with
    | some gql_field =>
        if gql_field = "" then
          pure sf2
        else if sf2.isSome then
          throw mutexErrorMsg
        else
          let operator_name := operator.getD "eq"
          if ¬ validOperatorName operator_name then
            throw ("invalid operator: " ++ operator_name)
          else
            let sql_field := parse_case_camel_to_snake gql_field
            if gql_field.data.contains '_' ∨ ¬ m.columns.contains sql_field then
              throw ("invalid filter field: " ++ gql_field)
            else if AuthorizationMiddleware.info_has_read_prop_access info m (some sql_field) none then
              pure (some (SqlFilter.cmp operator_name sql_field value))
            else
              pure sf2
    | none => pure sf2

/-- SQLAlchemyConnectionField._query_filter_list: compile each child in
order (the first raised error propagates) and drop null contributions. -/
def SQLAlchemyConnectionField.query_filter_list (m : Model) (info : Info) :
    List FilterInput → Except String (List SqlFilter)
  | [] => pure []
  | f :: fs => do
      let r ← SQLAlchemyConnectionField.query_filter_core m info f
      let rest ← SQLAlchemyConnectionField.query_filter_list m info fs
      match r with
      | some sf => pure (sf :: rest)
      | none => pure rest

end

/-- Order comparison on values, standing in for the Python comparison
operators used by the database engine. -/
def Value.pyLt : Value → Value → Bool
  | Value.int a, Value.int b => a < b
  | Value.str a, Value.str b => a < b
  | _, _ => false

mutual

/-- Predicate evaluation of a compiled filter on a row, standing in for
the database engine; its details are immaterial to the claims. -/
def evalSqlFilter (r : Row) : SqlFilter → Bool
  | SqlFilter.and_ fs => evalSqlFilterAll r fs
  | SqlFilter.or_ fs => evalSqlFilterAny r fs
  | SqlFilter.cmp op c v =>
      let a := r.getattr c
      let b := match v with
        | some w => w
        | none => Value.null
      match op with
      | "eq" => decide (a = b)
      | "ne" => ! decide (a = b)
      | "lt" => Value.pyLt a b
      | "le" => Value.pyLt a b || decide (a = b)
      | "gt" => Value.pyLt b a
      | "ge" => Value.pyLt b a || decide (a = b)
      | _ => false

def evalSqlFilterAll (r : Row) : List SqlFilter → Bool
  | [] => true
  | f :: fs => evalSqlFilter r f && evalSqlFilterAll r fs

def evalSqlFilterAny (r : Row) : List SqlFilter → Bool
  | [] => false
  | f :: fs => evalSqlFilter r f || evalSqlFilterAny r fs

end

/-- A lazy sqlalchemy query: the model it selects, the snapshot of the
underlying table rows supplied by the database session, the accumulated
WHERE predicates, and the accumulated ORDER BY clauses (column name and a
descending flag, true meaning DESC). -/
structure SAQuery where
  model : Model
  rows : List Row
  filters : List SqlFilter
  order_by_clauses : List (String × Bool)

/-- Query.filter: append one WHERE predicate. -/
def SAQuery.filter (q : SAQuery) (f : SqlFilter) : SAQuery :=
  { q with filters := q.filters ++ [f] }

/-- Query.order_by: append one ORDER BY clause. -/
def SAQuery.order_by (q : SAQuery) (c : String × Bool) : SAQuery :=
  { q with order_by_clauses := q.order_by_clauses ++ [c] }

/-- The rows a query produces: those satisfying every accumulated
predicate (row order under ORDER BY is a concern of the external database
engine and is not modelled). -/
def SAQuery.results (q : SAQuery) : List Row :=
  q.rows.filter (fun r => q.filters.all (fun f => evalSqlFilter r f))

/-- Query.count: the number of produced rows. -/
def SAQuery.count (q : SAQuery) : Nat :=
  q.results.length

/-- The default query for a model: all rows of its table, unfiltered and
unordered (the raiseload option only affects eager loading and has no
observable effect here). -/
def Model.default_query (m : Model) (info : Info) : SAQuery :=
  { model := m, rows := info.db m.name, filters := [], order_by_clauses := [] }

/-- SQLAlchemyConnectionField._query_filter: apply a compiled filter to a
query when the compilation produced a predicate. -/
def SQLAlchemyConnectionField.query_filter (m : Model) (info : Info) (query : SAQuery)
    (gql_filter : FilterInput) : Except String SAQuery := do
  let sql_filter ← SQLAlchemyConnectionField.query_filter_core m info gql_filter
  match sql_filter with
  | some f => pure (query.filter f)
  | none => pure query

/-- SQLAlchemyConnectionField._query_sort: validate each entry as filter
fields are validated, silently skip unauthorized columns, default the
direction to aesc, and append an ORDER BY clause per authorized entry in
listed order. -/
def SQLAlchemyConnectionField.query_sort (m : Model) (info : Info) (query : SAQuery) :
    List SortInput → Except String SAQuery
  | [] => pure query
  | e :: rest =>
      let direction := e.direction.getD "aesc"
      let gql_field := e.field
      let sql_field := parse_case_camel_to_snake gql_field
      if gql_field.data.contains '_' ∨ ¬ m.columns.contains sql_field then
        throw ("invalid sort field: " ++ gql_field)
      else if ¬ AuthorizationMiddleware.info_has_read_prop_access info m (some sql_field) none then
        SQLAlchemyConnectionField.query_sort m info query rest
      else if direction = "aesc" then
        SQLAlchemyConnectionField.query_sort m info (query.order_by (sql_field, false)) rest
      else if direction = "desc" then
        SQLAlchemyConnectionField.query_sort m info (query.order_by (sql_field, true)) rest
      else
        throw "sort direction must be either aesc or desc"

/-- The connection arguments: the filter and sort inputs and the relay
pagination pair used by the claims.  Absent arguments are none. -/
structure ConnArgs where
  filter : Option FilterInput
  sort : Option (List SortInput)
  first : Option Nat
  after : Option Nat

/-- SQLAlchemyConnectionField.query_shim: apply filter then sort when the
respective arguments are truthy (an absent sort or an empty sort list is
falsy; a supplied filter object is truthy). -/
def SQLAlchemyConnectionField.query_shim (m : Model) (info : Info) (query : SAQuery)
    (args : ConnArgs) : Except String SAQuery := do
  let q1 ← match args.filter with
    | some f => SQLAlchemyConnectionField.query_filter m info query f
    | none => pure query
  match args.sort with
  | some (s :: ss) => SQLAlchemyConnectionField.query_sort m info q1 (s :: ss)
  | _ => pure q1

/-- SQLAlchemyConnectionField.get_query: the default model query with the
raiseload option and then the filter/sort shim applied. -/
def SQLAlchemyConnectionField.get_query (m : Model) (info : Info) (args : ConnArgs) :
    Except String SAQuery :=
  SQLAlchemyConnectionField.query_shim m info (m.default_query info) args

/-- One relay edge: a node and its cursor offset. -/
structure Edge where
  node : Row
  cursor : Nat
deriving DecidableEq

/-- A relay connection value carrying the edges of the current slice, the
exposed total, and the length attached by the resolver. -/
structure Connection where
  edges : List Edge
  total : Nat
  length : Nat
deriving DecidableEq

/-- Modelled from the spec:
graphql_relay.connection.arrayconnection.connection_from_list_slice is an
external collaborator; the spec specifies relay array-connection slicing
over the interval from 0 to the total: after selects the elements past
that cursor offset and first limits their count, while the reported total
is passed through unchanged. -/
def connection_from_list_slice (xs : List Row) (first : Option Nat) (after : Option Nat)
    (total : Nat) : Connection :=
  let start := match after with
    | some a => a + 1
    | none => 0
  let dropped := xs.drop start
  let sliced := match first with
    | some n => dropped.take n
    | none => dropped
  { edges := sliced.enum.map (fun p => { node := p.2, cursor := start + p.1 }),
    total := total,
    length := total }

/-- The three shapes an inner resolver result can take: None (use the
default model query), a lazy sqlalchemy query, or a materialized
sequence. -/
inductive ResolverResult where
  | none_
  | query (q : SAQuery)
  | list (rows : List Row)

/-- SQLAlchemyConnectionField.connection_resolver: dispatch on the inner
resolver result; null means the default query (with filter and sort) and
total is its count; a lazy query gets the filter/sort shim and total is
its count; a materialized sequence is used as is and total is its
length.  The realized slice is then handed to relay slicing. -/
def SQLAlchemyConnectionField.connection_resolver
    (resolver : RootVal → Info → ConnArgs → ResolverResult) (m : Model) (root : RootVal)
    (info : Info) (args : ConnArgs) : Except String Connection := do
  let iterable := resolver root info args
  match iterable with
  | ResolverResult.none_ => do
      let q ← SQLAlchemyConnectionField.get_query m info args
      pure (connection_from_list_slice q.results args.first args.after q.count)
  | ResolverResult.query q0 => do
      let q ← SQLAlchemyConnectionField.query_shim m info q0 args
      pure (connection_from_list_slice q.results args.first args.after q.count)
  | ResolverResult.list xs =>
      pure (connection_from_list_slice xs args.first args.after xs.length)

/-- A Python datetime value restricted to the components the format
%Y-%m-%dT%H:%M:%S.%f exercises. -/
structure PyDateTime where
  year : Nat
  month : Nat
  day : Nat
  hour : Nat
  minute : Nat
  second : Nat
  microsecond : Nat
deriving DecidableEq

/-- Digit predicate on characters (codepoints 48 to 57). -/
def isDigitChar (c : Char) : Bool := 48 ≤ c.toNat && c.toNat ≤ 57

/-- Numeric value of a digit character. -/
def digitVal (c : Char) : Nat := c.toNat - 48

/-- Value of a digit string, most significant first. -/
def readDigitsVal (cs : List Char) : Nat := cs.foldl (fun a c => a * 10 + digitVal c) 0

/-- Zero-padded rendering of a number to a fixed digit count. -/
def padDigits : Nat → Nat → List Char
  | 0, _ => []
  | n + 1, v => padDigits n (v / 10) ++ [Char.ofNat (v % 10 + 48)]

/-- Consume exactly n digit characters. -/
def takeExactDigits (n : Nat) (cs : List Char) : Option (List Char × List Char) :=
  let pre := cs.take n
  if pre.length = n ∧ pre.all isDigitChar then some (pre, cs.drop n) else none

/-- Consume one expected character. -/
def expectChar (c : Char) : List Char → Option (List Char)
  | x :: xs => if x = c then some xs else none
  | [] => none

/-- A fixed-width format token: a run of exactly n digits or a literal
separator character. -/
inductive FmtTok where
  | digits (n : Nat)
  | lit (c : Char)

/-- Parse a token list against a character list, returning the numeric
values of the digit runs and the remaining characters. -/
def parseToks : List FmtTok → List Char → Option (List Nat × List Char)
  | [], cs => some ([], cs)
  | FmtTok.digits n :: ts, cs =>
      match takeExactDigits n cs with
      | none => none
      | some (ds, r) =>
          match parseToks ts r with
          | none => none
          | some (vs, rest) => some (readDigitsVal ds :: vs, rest)
  | FmtTok.lit c :: ts, cs =>
      match expectChar c cs with
      | none => none
      | some r => parseToks ts r

/-- Render numeric values back through a token list, zero-padding each
digit run to its width. -/
def renderToks : List FmtTok → List Nat → List Char
  | [], _ => []
  | FmtTok.digits n :: ts, v :: vs => padDigits n v ++ renderToks ts vs
  | FmtTok.digits _ :: _, [] => []
  | FmtTok.lit c :: ts, vs => c :: renderToks ts vs

/-- The exact wire format %Y-%m-%dT%H:%M:%S.%f as fixed-width tokens. -/
def isoFormatToks : List FmtTok :=
  [FmtTok.digits 4, FmtTok.lit '-', FmtTok.digits 2, FmtTok.lit '-', FmtTok.digits 2,
   FmtTok.lit 'T', FmtTok.digits 2, FmtTok.lit ':', FmtTok.digits 2, FmtTok.lit ':',
   FmtTok.digits 2, FmtTok.lit '.', FmtTok.digits 6]

/-- Modelled from the spec: datetime.datetime.strptime with the exact
wire format %Y-%m-%dT%H:%M:%S.%f is an external collaborator; the spec
fixes the timestamp wire format to ISO-8601 with microsecond precision.
Component range checks mirror the datetime constructor (day-of-month
validation is simplified to an upper bound of 31); a format mismatch,
raised as ValueError by Python, is embedded as none. -/
def strptime_iso_fmt (s : String) : Option PyDateTime :=
  match parseToks isoFormatToks s.data with
  | some ([y, mo, d, h, mi, se, us], []) =>
      if 1 ≤ mo ∧ mo ≤ 12 ∧ 1 ≤ d ∧ d ≤ 31 ∧ h ≤ 23 ∧ mi ≤ 59 ∧ se ≤ 59 then
        some { year := y, month := mo, day := d, hour := h, minute := mi,
               second := se, microsecond := us }
      else
        none
  | _ => none

/-- Modelled from the spec: rendering a datetime in the exact wire format
%Y-%m-%dT%H:%M:%S.%f (the transport-side serialization of the timestamp
value the scalar hands back). -/
def strftime_iso_fmt (dt : PyDateTime) : String :=
  String.mk (renderToks isoFormatToks
    [dt.year, dt.month, dt.day, dt.hour, dt.minute, dt.second, dt.microsecond])

/-- DateTimeScalar.serialize: returns the underlying timestamp value
unchanged. -/
def DateTimeScalar.serialize (dt : PyDateTime) : PyDateTime := dt

/-- DateTimeScalar.parse_value: strptime with the exact format. -/
def DateTimeScalar.parse_value (s : String) : Option PyDateTime :=
  strptime_iso_fmt s

/-- The literal kinds of the graphql ast relevant to the scalars. -/
inductive AstNode where
  | stringValue (value : String)
  | intValue (value : String)
  | floatValue (value : String)
  | booleanValue (value : Bool)

/-- DateTimeScalar.parse_literal: a string literal is parsed with the
exact format; any other literal kind yields None. -/
def DateTimeScalar.parse_literal : AstNode → Option PyDateTime
  | AstNode.stringValue s => strptime_iso_fmt s
  | _ => none

/-- RelayNode.from_global_id: returns its input unchanged. -/
def RelayNode.from_global_id (global_id : String) : String := global_id

/-- RelayNode.to_global_id: ignores the type and returns the local id
unchanged. -/
def RelayNode.to_global_id (_t : String) (local_id : String) : String := local_id

/-- A GeoLocation object: the six fields instantiated from a lookup
result (coordinate numbers are represented opaquely as strings; their
values are immaterial to the claims). -/
structure GeoLocation where
  city : Option String
  continent : Option String
  coordinates : List String
  country : Option String
  postal_code : Option String
  time_zone : Option String
deriving DecidableEq

/-- Modelled from the spec: a parsed IP address; the core consults only
its is_private flag. -/
structure IPAddress where
  is_private : Bool

/-- Modelled from the spec: the external collaborators of the geoip
path: king_phisher.ipaddress.ip_address parses an IP string and
king_phisher.geoip.lookup maps an address to a result record or null. -/
structure GeoIpEnv where
  ip_address : String → IPAddress
  lookup : IPAddress → Option GeoLocation

/-- GeoLocation.from_ip_address: parse the string; a private address
yields None before any lookup; a lookup yielding no result yields None;
otherwise instantiate from the result record. -/
def GeoLocation.from_ip_address (env : GeoIpEnv) (ip : String) : Option GeoLocation :=
  let a := env.ip_address ip
  if a.is_private then
    none
  else
    match env.lookup a with
    | none => none
    | some result => some result

/-- Query.resolve_geoloc: the top-level geoloc resolver returns None when
the ip argument is absent, and otherwise delegates to
GeoLocation.from_ip_address. -/
def Query.resolve_geoloc (env : GeoIpEnv) (ip : Option String) : Option GeoLocation :=
  match ip with
  | none => none
  | some ip_address => GeoLocation.from_ip_address env ip_address

/-- Concrete environments and inputs used by the witnesses below. -/
def witnessPrivateEnv : GeoIpEnv :=
  { ip_address := fun _ => { is_private := true },
    lookup := fun _ => some { city := some "x", continent := none, coordinates := [],
                              country := none, postal_code := none, time_zone := none } }

def witnessPublicUnknownEnv : GeoIpEnv :=
  { ip_address := fun _ => { is_private := false }, lookup := fun _ => none }

/-- C8: RelayNode.to_global_id and RelayNode.from_global_id each return
their (local id) input unchanged, so exposed identifiers are the local
primary key verbatim and the two compose to the identity in either
order. -/
theorem relay_node_global_id_identity :
    (∀ i : String, RelayNode.from_global_id i = i) ∧
    (∀ t i : String, RelayNode.to_global_id t i = i) ∧
    (∀ t i : String, RelayNode.from_global_id (RelayNode.to_global_id t i) = i) ∧
    (∀ t i : String, RelayNode.to_global_id t (RelayNode.from_global_id i) = i) :=
  ⟨fun _ => rfl, fun _ _ => rfl, fun _ _ => rfl, fun _ _ => rfl⟩

/-- C9: GeoLocation.from_ip_address returns null for every private IP
address, for any lookup function whatsoever (so no lookup result is ever
consulted), and returns null when the lookup yields no result; the
top-level geoloc resolver additionally returns null when the ip argument
is absent. -/
theorem geoloc_null_for_missing_private_unknown :
    (∀ (env : GeoIpEnv) (ip : String), (env.ip_address ip).is_private = true →
        GeoLocation.from_ip_address env ip = none) ∧
    (∀ (parse : String → IPAddress) (lookup1 lookup2 : IPAddress → Option GeoLocation)
        (ip : String), (parse ip).is_private = true →
        GeoLocation.from_ip_address { ip_address := parse, lookup := lookup1 } ip =
          GeoLocation.from_ip_address { ip_address := parse, lookup := lookup2 } ip) ∧
    (∀ (env : GeoIpEnv) (ip : String), (env.ip_address ip).is_private = false →
        env.lookup (env.ip_address ip) = none →
        GeoLocation.from_ip_address env ip = none) ∧
    (∀ env : GeoIpEnv, Query.resolve_geoloc env none = none) := by
  refine ⟨?_, ?_, ?_, ?_⟩
  · intro env ip h
    simp [GeoLocation.from_ip_address, h]
  · intro parse lookup1 lookup2 ip h
    simp [GeoLocation.from_ip_address, h]
  · intro env ip h hl
    simp [GeoLocation.from_ip_address, h, hl]
  · intro env
    rfl

/-- C9 witness: the theorem applied to a concrete private address, a
concrete public address with an empty lookup, and an absent argument. -/
theorem geoloc_null_witness :
    GeoLocation.from_ip_address witnessPrivateEnv "10.0.0.1" = none ∧
    GeoLocation.from_ip_address witnessPublicUnknownEnv "93.184.216.34" = none ∧
    Query.resolve_geoloc witnessPrivateEnv none = none :=
  ⟨geoloc_null_for_missing_private_unknown.1 witnessPrivateEnv "10.0.0.1" rfl,
   geoloc_null_for_missing_private_unknown.2.2.1 witnessPublicUnknownEnv "93.184.216.34" rfl rfl,
   geoloc_null_for_missing_private_unknown.2.2.2 witnessPrivateEnv⟩


/-- Step lemma: a sort entry with an underscore in its name or an unknown
column raises. -/
theorem query_sort_cons_invalid (m : Model) (info : Info) (q : SAQuery) (e : SortInput)
    (rest : List SortInput)
    (h : '_' ∈ e.field.data ∨ parse_case_camel_to_snake e.field ∉ m.columns) :
    SQLAlchemyConnectionField.query_sort m info q (e :: rest) =
      Except.error ("invalid sort field: " ++ e.field) := by
  rw [SQLAlchemyConnectionField.query_sort]
  rw [if_pos (by simpa using h)]
  rfl

/-- Step lemma: a valid but unauthorized sort entry is skipped. -/
theorem query_sort_cons_denied (m : Model) (info : Info) (q : SAQuery) (e : SortInput)
    (rest : List SortInput)
    (hun : '_' ∉ e.field.data)
    (hcol : parse_case_camel_to_snake e.field ∈ m.columns)
    (hauth : AuthorizationMiddleware.info_has_read_prop_access info m
      (some (parse_case_camel_to_snake e.field)) none = false) :
    SQLAlchemyConnectionField.query_sort m info q (e :: rest) =
      SQLAlchemyConnectionField.query_sort m info q rest := by
  rw [SQLAlchemyConnectionField.query_sort]
  rw [if_neg (by simp [hun, hcol]), if_pos (by simp [hauth])]

/-- Step lemma: a valid authorized sort entry appends its ORDER BY clause
(descending exactly when the direction is desc) and processing
continues. -/
theorem query_sort_cons_granted (m : Model) (info : Info) (q : SAQuery) (e : SortInput)
    (rest : List SortInput)
    (hun : '_' ∉ e.field.data)
    (hcol : parse_case_camel_to_snake e.field ∈ m.columns)
    (hauth : AuthorizationMiddleware.info_has_read_prop_access info m
      (some (parse_case_camel_to_snake e.field)) none = true)
    (hdir : e.direction.getD "aesc" = "aesc" ∨ e.direction.getD "aesc" = "desc") :
    SQLAlchemyConnectionField.query_sort m info q (e :: rest) =
      SQLAlchemyConnectionField.query_sort m info
        (q.order_by (parse_case_camel_to_snake e.field,
          decide (e.direction.getD "aesc" = "desc"))) rest := by
  rw [SQLAlchemyConnectionField.query_sort]
  rw [if_neg (by simp [hun, hcol]), if_neg (by simp [hauth])]
  rcases hdir with hd | hd
  · rw [if_pos hd]
    simp [hd]
  · rw [if_neg (by simp [hd]), if_pos hd]
    simp [hd]

/-- The trailing leaf logic of SQLAlchemyConnectionField.__query_filter
(the field branch entered after the and / or branches), factored out for
the unfolding lemmas below; definitionally equal to the corresponding
part of the compiled body. -/
def SQLAlchemyConnectionField.query_filter_field_branch (m : Model) (info : Info)
    (field : Option String) (value : Option Value) (operator : Option String)
    (sf2 : Option SqlFilter) : Except String (Option SqlFilter) :=
  match field with
  | some gql_field =>
      if gql_field = "" then
        pure sf2
      else if sf2.isSome then
        throw mutexErrorMsg
      else
        let operator_name := operator.getD "eq"
        if ¬ validOperatorName operator_name then
          throw ("invalid operator: " ++ operator_name)
        else
          let sql_field := parse_case_camel_to_snake gql_field
          if gql_field.data.contains '_' ∨ ¬ m.columns.contains sql_field then
            throw ("invalid filter field: " ++ gql_field)
          else if AuthorizationMiddleware.info_has_read_prop_access info m (some sql_field) none then
            pure (some (SqlFilter.cmp operator_name sql_field value))
          else
            pure sf2
  | none => pure sf2

/-- Unfolding: a node with falsy and / or branches runs the field branch
on an empty accumulator. -/
theorem query_filter_core_falsy_eq (m : Model) (info : Info) (field : Option String)
    (v : Option Value) (op : Option String) :
    SQLAlchemyConnectionField.query_filter_core m info
        (FilterInput.mk none none field v op) =
      SQLAlchemyConnectionField.query_filter_field_branch m info field v op none := rfl

/-- Unfolding: a node with a populated and branch compiles the children,
raises on a populated or branch, and otherwise runs the field branch on
the conjunction. -/
theorem query_filter_core_and_eq (m : Model) (info : Info) (f : FilterInput)
    (fs : List FilterInput) (OR : Option (List FilterInput)) (field : Option String)
    (v : Option Value) (op : Option String) :
    SQLAlchemyConnectionField.query_filter_core m info
        (FilterInput.mk (some (f :: fs)) OR field v op) =
      (SQLAlchemyConnectionField.query_filter_list m info (f :: fs) >>= fun children =>
        (match OR with
          | some (_ :: _) => throw mutexErrorMsg
          | _ => pure (some (SqlFilter.and_ children))) >>= fun sf2 =>
        SQLAlchemyConnectionField.query_filter_field_branch m info field v op sf2) := by
  cases OR with
  | none => rfl
  | some l =>
      cases l with
      | nil => rfl
      | cons x xs => rfl

/-- Unfolding: a node with a falsy and branch and a populated or branch
compiles the children and runs the field branch on the disjunction. -/
theorem query_filter_core_or_eq (m : Model) (info : Info) (x : FilterInput)
    (xs : List FilterInput) (field : Option String) (v : Option Value)
    (op : Option String) :
    SQLAlchemyConnectionField.query_filter_core m info
        (FilterInput.mk none (some (x :: xs)) field v op) =
      (SQLAlchemyConnectionField.query_filter_list m info (x :: xs) >>= fun children =>
        SQLAlchemyConnectionField.query_filter_field_branch m info field v op
          (some (SqlFilter.or_ children))) := rfl

/-- Unfolding: an and branch populated with an empty list behaves as an
absent and branch. -/
theorem query_filter_core_and_empty_eq (m : Model) (info : Info)
    (OR : Option (List FilterInput)) (field : Option String) (v : Option Value)
    (op : Option String) :
    SQLAlchemyConnectionField.query_filter_core m info
        (FilterInput.mk (some []) OR field v op) =
      SQLAlchemyConnectionField.query_filter_core m info
        (FilterInput.mk none OR field v op) := by
  cases OR with
  | none => rfl
  | some l =>
      cases l with
      | nil => rfl
      | cons x xs => rfl

/-- Unfolding: an or branch populated with an empty list behaves as an
absent or branch. -/
theorem query_filter_core_or_empty_eq (m : Model) (info : Info)
    (AND : Option (List FilterInput)) (field : Option String) (v : Option Value)
    (op : Option String) :
    SQLAlchemyConnectionField.query_filter_core m info
        (FilterInput.mk AND (some []) field v op) =
      SQLAlchemyConnectionField.query_filter_core m info
        (FilterInput.mk AND none field v op) := by
  cases AND with
  | none => rfl
  | some l =>
      cases l with
      | nil => rfl
      | cons x xs => rfl

/-- Unfolding: the child list compiler on an empty list. -/
theorem query_filter_list_nil_eq (m : Model) (info : Info) :
    SQLAlchemyConnectionField.query_filter_list m info [] = pure [] := rfl

/-- Unfolding: the child list compiler on a nonempty list. -/
theorem query_filter_list_cons_eq (m : Model) (info : Info) (f : FilterInput)
    (fs : List FilterInput) :
    SQLAlchemyConnectionField.query_filter_list m info (f :: fs) =
      (SQLAlchemyConnectionField.query_filter_core m info f >>= fun r =>
       SQLAlchemyConnectionField.query_filter_list m info fs >>= fun rest =>
       match r with
       | some sf => pure (sf :: rest)
       | none => pure rest) := rfl

/-- Step lemma: leaf compilation of a filter node carrying only a
nonempty field, on a valid operator and column, produces the comparison
predicate when access is granted and no predicate when denied. -/
theorem query_filter_core_leaf (m : Model) (info : Info) (gql_field : String)
    (value : Option Value) (operator : Option String)
    (hgf : ¬ gql_field = "")
    (hop : validOperatorName (operator.getD "eq") = true)
    (hun : '_' ∉ gql_field.data)
    (hcol : parse_case_camel_to_snake gql_field ∈ m.columns) :
    SQLAlchemyConnectionField.query_filter_core m info
        (FilterInput.mk none none (some gql_field) value operator) =
      (if AuthorizationMiddleware.info_has_read_prop_access info m
          (some (parse_case_camel_to_snake gql_field)) none then
        Except.ok (some (SqlFilter.cmp (operator.getD "eq")
          (parse_case_camel_to_snake gql_field) value))
      else
        Except.ok none) := by
  rw [query_filter_core_falsy_eq]
  rw [SQLAlchemyConnectionField.query_filter_field_branch]
  rw [if_neg hgf]
  simp only [Option.isSome_none, Bool.false_eq_true, if_false]
  rw [if_neg (by simp [hop]), if_neg (by simp [hun, hcol])]
  split
  · rfl
  · rfl

/-- C2: with no session in the context, the permission check returns
true, the middleware invokes the inner resolver unchanged, every valid
filter leaf emits its predicate, and every valid sort entry is applied. -/
theorem no_session_authorization_transparent :
    (∀ (info : Info) (m : Model) (fn : Option String) (inst : Option Row),
        info.rpc_session = none →
        AuthorizationMiddleware.info_has_read_prop_access info m fn inst = true) ∧
    (∀ (next_ : RootVal → Info → Option Value) (root : RootVal) (info : Info),
        info.rpc_session = none →
        AuthorizationMiddleware.resolve next_ root info = next_ root info) ∧
    (∀ (m : Model) (info : Info) (gql_field : String) (value : Option Value)
        (operator : Option String),
        info.rpc_session = none →
        ¬ gql_field = "" →
        validOperatorName (operator.getD "eq") = true →
        '_' ∉ gql_field.data →
        parse_case_camel_to_snake gql_field ∈ m.columns →
        SQLAlchemyConnectionField.query_filter_core m info
            (FilterInput.mk none none (some gql_field) value operator) =
          Except.ok (some (SqlFilter.cmp (operator.getD "eq")
            (parse_case_camel_to_snake gql_field) value))) ∧
    (∀ (m : Model) (info : Info) (q : SAQuery) (entries : List SortInput),
        info.rpc_session = none →
        (∀ e ∈ entries, '_' ∉ e.field.data ∧
            parse_case_camel_to_snake e.field ∈ m.columns ∧
            (e.direction.getD "aesc" = "aesc" ∨ e.direction.getD "aesc" = "desc")) →
        SQLAlchemyConnectionField.query_sort m info q entries =
          Except.ok { q with order_by_clauses :=
            q.order_by_clauses ++ entries.map (fun e => (parse_case_camel_to_snake e.field,
              decide (e.direction.getD "aesc" = "desc"))) }) := by
  refine ⟨?_, ?_, ?_, ?_⟩
  · intro info m fn inst h
    simp [AuthorizationMiddleware.info_has_read_prop_access, h]
  · intro next_ root info h
    cases root with
    | entity model row =>
        simp [AuthorizationMiddleware.resolve,
          AuthorizationMiddleware.info_has_read_prop_access, h]
    | plain v => rfl
  · intro m info gql_field value operator hs hgf hop hun hcol
    rw [query_filter_core_leaf m info gql_field value operator hgf hop hun hcol]
    rw [if_pos]
    simp [AuthorizationMiddleware.info_has_read_prop_access, hs]
  · intro m info q entries hs hvalid
    induction entries generalizing q with
    | nil =>
        simp only [List.map_nil, List.append_nil, SQLAlchemyConnectionField.query_sort]
        rfl
    | cons e rest ih =>
        obtain ⟨hun, hcol, hdir⟩ := hvalid e (by simp)
        have hrest : ∀ x ∈ rest, '_' ∉ x.field.data ∧
            parse_case_camel_to_snake x.field ∈ m.columns ∧
            (x.direction.getD "aesc" = "aesc" ∨ x.direction.getD "aesc" = "desc") :=
          fun x hx => hvalid x (by simp [hx])
        have hauth : AuthorizationMiddleware.info_has_read_prop_access info m
            (some (parse_case_camel_to_snake e.field)) none = true := by
          simp [AuthorizationMiddleware.info_has_read_prop_access, hs]
        rw [query_sort_cons_granted m info q e rest hun hcol hauth hdir]
        rw [ih _ hrest]
        simp [SAQuery.order_by, List.append_assoc]

/-- Concrete model, rows, infos and queries used by the witnesses. -/
def witnessModel : Model :=
  { name := "campaigns", columns := ["id", "name", "created"] }

def witnessRow : Row :=
  { attrs := [("id", Value.int 1), ("name", Value.str "spring")] }

def witnessInfoNoSession : Info :=
  { rpc_session := none, field_name := "name", db := fun _ => [] }

def witnessDenyAllSession : Session :=
  { may_read := fun _ _ _ => false }

def witnessInfoDenied : Info :=
  { rpc_session := some witnessDenyAllSession, field_name := "name", db := fun _ => [] }

def witnessQuery : SAQuery :=
  { model := witnessModel, rows := [], filters := [], order_by_clauses := [] }

/-- C2 witness: the theorem applied to a concrete sessionless context for
a permission check, a middleware resolution, a filter leaf, and a sort
list. -/
theorem no_session_transparent_witness :
    AuthorizationMiddleware.info_has_read_prop_access witnessInfoNoSession witnessModel
      none none = true ∧
    AuthorizationMiddleware.resolve (fun _ _ => some (Value.int 7))
      (RootVal.entity witnessModel witnessRow) witnessInfoNoSession = some (Value.int 7) ∧
    SQLAlchemyConnectionField.query_filter_core witnessModel witnessInfoNoSession
      (FilterInput.mk none none (some "name") (some (Value.str "x")) none) =
      Except.ok (some (SqlFilter.cmp "eq" "name" (some (Value.str "x")))) ∧
    SQLAlchemyConnectionField.query_sort witnessModel witnessInfoNoSession witnessQuery
      [{ field := "created", direction := some "desc" }] =
      Except.ok { witnessQuery with order_by_clauses := [("created", true)] } :=
  ⟨no_session_authorization_transparent.1 witnessInfoNoSession witnessModel none none rfl,
   no_session_authorization_transparent.2.1 (fun _ _ => some (Value.int 7))
     (RootVal.entity witnessModel witnessRow) witnessInfoNoSession rfl,
   no_session_authorization_transparent.2.2.1 witnessModel witnessInfoNoSession "name"
     (some (Value.str "x")) none rfl (by decide) (by decide) (by decide) (by decide),
   no_session_authorization_transparent.2.2.2 witnessModel witnessInfoNoSession witnessQuery
     [{ field := "created", direction := some "desc" }] rfl (by decide)⟩

/-- C1: with a session that denies reading column C on model M, (a) the
middleware short-circuits resolution of C on an instance to null without
invoking the inner resolver, (b) a filter leaf referencing C compiles to
no predicate, (c) a sort entry referencing C is skipped, and none of the
three raises an error. -/
theorem denied_column_null_no_predicate_skipped :
    ∀ (m : Model) (s : Session) (info : Info) (C : String),
      info.rpc_session = some s →
      C ≠ "" →
      (∀ inst : Option Row, s.may_read m.name C inst = false) →
      ((∀ (next_ : RootVal → Info → Option Value) (row : Row),
          info.field_name = C →
          AuthorizationMiddleware.resolve next_ (RootVal.entity m row) info = none) ∧
       (∀ (gql_field : String) (value : Option Value) (operator : Option String),
          ¬ gql_field = "" →
          validOperatorName (operator.getD "eq") = true →
          '_' ∉ gql_field.data →
          parse_case_camel_to_snake gql_field = C →
          C ∈ m.columns →
          SQLAlchemyConnectionField.query_filter_core m info
            (FilterInput.mk none none (some gql_field) value operator) = Except.ok none) ∧
       (∀ (q : SAQuery) (e : SortInput) (rest : List SortInput),
          '_' ∉ e.field.data →
          parse_case_camel_to_snake e.field = C →
          C ∈ m.columns →
          SQLAlchemyConnectionField.query_sort m info q (e :: rest) =
            SQLAlchemyConnectionField.query_sort m info q rest) ∧
       (∀ (q : SAQuery) (e : SortInput),
          '_' ∉ e.field.data →
          parse_case_camel_to_snake e.field = C →
          C ∈ m.columns →
          SQLAlchemyConnectionField.query_sort m info q [e] = Except.ok q)) := by
  intro m s info C hs hC hdeny
  have hauthC : AuthorizationMiddleware.info_has_read_prop_access info m (some C) none
      = false := by
    simp [AuthorizationMiddleware.info_has_read_prop_access, hs,
      Model.session_has_read_prop_access, if_neg hC, hdeny]
  refine ⟨?_, ?_, ?_, ?_⟩
  · intro next_ row hfn
    simp [AuthorizationMiddleware.resolve, AuthorizationMiddleware.info_has_read_prop_access,
      hs, Model.session_has_read_prop_access, hfn, hdeny]
  · intro gql_field value operator hgf hop hun hsnake
    intro hcol
    rw [query_filter_core_leaf m info gql_field value operator hgf hop hun
      (by rw [hsnake]; exact hcol)]
    rw [hsnake, if_neg (by simp [hauthC])]
  · intro q e rest hun hsnake hcol
    exact query_sort_cons_denied m info q e rest hun (by rw [hsnake]; exact hcol)
      (by rw [hsnake]; exact hauthC)
  · intro q e hun hsnake hcol
    rw [query_sort_cons_denied m info q e [] hun (by rw [hsnake]; exact hcol)
      (by rw [hsnake]; exact hauthC)]
    rfl

/-- C1 witness: the theorem applied to a concrete denying session, the
column name, the middleware, a filter leaf and a one-entry sort list. -/
theorem denied_column_witness :
    AuthorizationMiddleware.resolve (fun _ _ => some (Value.int 7))
      (RootVal.entity witnessModel witnessRow) witnessInfoDenied = none ∧
    SQLAlchemyConnectionField.query_filter_core witnessModel witnessInfoDenied
      (FilterInput.mk none none (some "name") (some (Value.str "x")) none) =
      Except.ok none ∧
    SQLAlchemyConnectionField.query_sort witnessModel witnessInfoDenied witnessQuery
      [{ field := "name", direction := none }] = Except.ok witnessQuery := by
  have h := denied_column_null_no_predicate_skipped witnessModel witnessDenyAllSession
    witnessInfoDenied "name" rfl (by decide) (fun _ => rfl)
  exact ⟨h.1 (fun _ _ => some (Value.int 7)) witnessRow rfl,
    h.2.1 "name" (some (Value.str "x")) none (by decide) (by decide) (by decide) rfl
      (by decide),
    h.2.2.2 witnessQuery { field := "name", direction := none } (by decide) rfl (by decide)⟩

/-- C4: for a filter leaf, the field name is translated from camelCase to
snake_case; a specified operator outside the six enumerated names raises,
an underscore in the original name or an unknown snake_case column
raises, and an omitted operator defaults to eq. -/
theorem filter_leaf_validation :
    ∀ (m : Model) (info : Info) (gql_field : String) (value : Option Value),
      ¬ gql_field = "" →
      ((∀ op_name : String, validOperatorName op_name = false →
          SQLAlchemyConnectionField.query_filter_core m info
            (FilterInput.mk none none (some gql_field) value (some op_name)) =
            Except.error ("invalid operator: " ++ op_name)) ∧
       (∀ operator : Option String, validOperatorName (operator.getD "eq") = true →
          ('_' ∈ gql_field.data ∨ parse_case_camel_to_snake gql_field ∉ m.columns) →
          SQLAlchemyConnectionField.query_filter_core m info
            (FilterInput.mk none none (some gql_field) value operator) =
            Except.error ("invalid filter field: " ++ gql_field)) ∧
       ('_' ∉ gql_field.data →
        parse_case_camel_to_snake gql_field ∈ m.columns →
        AuthorizationMiddleware.info_has_read_prop_access info m
          (some (parse_case_camel_to_snake gql_field)) none = true →
        SQLAlchemyConnectionField.query_filter_core m info
          (FilterInput.mk none none (some gql_field) value none) =
          Except.ok (some (SqlFilter.cmp "eq" (parse_case_camel_to_snake gql_field)
            value)))) := by
  intro m info gql_field value hgf
  refine ⟨?_, ?_, ?_⟩
  · intro op_name hop
    rw [query_filter_core_falsy_eq]
    rw [SQLAlchemyConnectionField.query_filter_field_branch]
    rw [if_neg hgf]
    simp only [Option.isSome_none, Bool.false_eq_true, if_false]
    rw [if_pos (by simp [Option.getD, hop])]
    rfl
  · intro operator hop hbad
    rw [query_filter_core_falsy_eq]
    rw [SQLAlchemyConnectionField.query_filter_field_branch]
    rw [if_neg hgf]
    simp only [Option.isSome_none, Bool.false_eq_true, if_false]
    rw [if_neg (by simp [hop]), if_pos (by simpa using hbad)]
    rfl
  · intro hun hcol hauth
    rw [query_filter_core_leaf m info gql_field value none hgf (by decide) hun hcol]
    rw [if_pos hauth]
    rfl

/-- C4 witness: the theorem applied to a bad operator, an underscore
field, an unknown column, and an omitted operator on a concrete model. -/
theorem filter_leaf_validation_witness :
    SQLAlchemyConnectionField.query_filter_core witnessModel witnessInfoNoSession
      (FilterInput.mk none none (some "name") none (some "like")) =
      Except.error ("invalid operator: " ++ "like") ∧
    SQLAlchemyConnectionField.query_filter_core witnessModel witnessInfoNoSession
      (FilterInput.mk none none (some "created_at") (some (Value.int 0)) none) =
      Except.error ("invalid filter field: " ++ "created_at") ∧
    SQLAlchemyConnectionField.query_filter_core witnessModel witnessInfoNoSession
      (FilterInput.mk none none (some "nosuch") none none) =
      Except.error ("invalid filter field: " ++ "nosuch") ∧
    SQLAlchemyConnectionField.query_filter_core witnessModel witnessInfoNoSession
      (FilterInput.mk none none (some "name") (some (Value.int 3)) none) =
      Except.ok (some (SqlFilter.cmp "eq" "name" (some (Value.int 3)))) := by
  refine ⟨?_, ?_, ?_, ?_⟩
  · exact (filter_leaf_validation witnessModel witnessInfoNoSession "name" none
      (by decide)).1 "like" (by decide)
  · exact (filter_leaf_validation witnessModel witnessInfoNoSession "created_at"
      (some (Value.int 0)) (by decide)).2.1 none (by decide) (by decide)
  · exact (filter_leaf_validation witnessModel witnessInfoNoSession "nosuch" none
      (by decide)).2.1 none (by decide) (by decide)
  · exact (filter_leaf_validation witnessModel witnessInfoNoSession "name"
      (some (Value.int 3)) (by decide)).2.2 (by decide) (by decide) rfl

/-- Step lemma: a valid authorized sort entry with a direction other than
aesc or desc raises. -/
theorem query_sort_cons_baddir (m : Model) (info : Info) (q : SAQuery) (e : SortInput)
    (rest : List SortInput)
    (hun : '_' ∉ e.field.data)
    (hcol : parse_case_camel_to_snake e.field ∈ m.columns)
    (hauth : AuthorizationMiddleware.info_has_read_prop_access info m
      (some (parse_case_camel_to_snake e.field)) none = true)
    (hd1 : ¬ e.direction.getD "aesc" = "aesc")
    (hd2 : ¬ e.direction.getD "aesc" = "desc") :
    SQLAlchemyConnectionField.query_sort m info q (e :: rest) =
      Except.error "sort direction must be either aesc or desc" := by
  rw [SQLAlchemyConnectionField.query_sort]
  rw [if_neg (by simp [hun, hcol]), if_neg (by simp [hauth]), if_neg hd1, if_neg hd2]
  rfl

/-- The ORDER BY clauses a sort list contributes: the authorized entries,
in listed order, each as its snake_case column with a descending flag. -/
def sortClauses (m : Model) (info : Info) (entries : List SortInput) :
    List (String × Bool) :=
  (entries.filter (fun e => AuthorizationMiddleware.info_has_read_prop_access info m
    (some (parse_case_camel_to_snake e.field)) none)).map
    (fun e => (parse_case_camel_to_snake e.field,
      decide (e.direction.getD "aesc" = "desc")))

/-- C5: each sort entry is validated exactly as filter fields are (an
underscore in the original name or an unknown column raises an error),
unauthorized columns are silently skipped, the direction defaults to aesc
when omitted, and each authorized entry appends its ORDER BY clause
(descending exactly for desc) in listed order. -/
theorem sort_compilation :
    (∀ (m : Model) (info : Info) (q : SAQuery) (entries : List SortInput) (e : SortInput),
        e ∈ entries →
        ('_' ∈ e.field.data ∨ parse_case_camel_to_snake e.field ∉ m.columns) →
        ∃ msg, SQLAlchemyConnectionField.query_sort m info q entries =
          Except.error msg) ∧
    (∀ (m : Model) (info : Info) (q : SAQuery) (entries : List SortInput),
        (∀ e ∈ entries, '_' ∉ e.field.data ∧
            parse_case_camel_to_snake e.field ∈ m.columns ∧
            (e.direction.getD "aesc" = "aesc" ∨ e.direction.getD "aesc" = "desc")) →
        SQLAlchemyConnectionField.query_sort m info q entries =
          Except.ok { q with order_by_clauses :=
            q.order_by_clauses ++ sortClauses m info entries }) := by
  constructor
  · intro m info q entries e hmem hbad
    induction entries generalizing q with
    | nil => cases hmem
    | cons x rest ih =>
        rcases List.mem_cons.mp hmem with hx | hx
        · subst hx
          exact ⟨_, query_sort_cons_invalid m info q e rest (by simpa using hbad)⟩
        · by_cases hinv : '_' ∈ x.field.data ∨ parse_case_camel_to_snake x.field ∉ m.columns
          · exact ⟨_, query_sort_cons_invalid m info q x rest hinv⟩
          · push_neg at hinv
            obtain ⟨hun, hcol⟩ := hinv
            by_cases hauth : AuthorizationMiddleware.info_has_read_prop_access info m
                (some (parse_case_camel_to_snake x.field)) none = true
            · by_cases hd1 : x.direction.getD "aesc" = "aesc"
              · rw [query_sort_cons_granted m info q x rest hun hcol hauth (Or.inl hd1)]
                exact ih _ hx
              · by_cases hd2 : x.direction.getD "aesc" = "desc"
                · rw [query_sort_cons_granted m info q x rest hun hcol hauth (Or.inr hd2)]
                  exact ih _ hx
                · exact ⟨_, query_sort_cons_baddir m info q x rest hun hcol hauth hd1 hd2⟩
            · rw [query_sort_cons_denied m info q x rest hun hcol
                (Bool.not_eq_true _ ▸ hauth)]
              exact ih _ hx
  · intro m info q entries hvalid
    induction entries generalizing q with
    | nil =>
        simp only [sortClauses, List.filter_nil, List.map_nil, List.append_nil,
          SQLAlchemyConnectionField.query_sort]
        rfl
    | cons e rest ih =>
        obtain ⟨hun, hcol, hdir⟩ := hvalid e (by simp)
        have hrest : ∀ x ∈ rest, '_' ∉ x.field.data ∧
            parse_case_camel_to_snake x.field ∈ m.columns ∧
            (x.direction.getD "aesc" = "aesc" ∨ x.direction.getD "aesc" = "desc") :=
          fun x hx => hvalid x (by simp [hx])
        by_cases hauth : AuthorizationMiddleware.info_has_read_prop_access info m
            (some (parse_case_camel_to_snake e.field)) none = true
        · rw [query_sort_cons_granted m info q e rest hun hcol hauth hdir]
          rw [ih _ hrest]
          simp [SAQuery.order_by, sortClauses, List.filter_cons, hauth, List.append_assoc]
        · rw [query_sort_cons_denied m info q e rest hun hcol
            (Bool.not_eq_true _ ▸ hauth)]
          rw [ih _ hrest]
          simp [sortClauses, List.filter_cons, Bool.not_eq_true _ ▸ hauth]

/-- A session for the C5 witness granting name and id but denying
created. -/
def witnessNameIdSession : Session :=
  { may_read := fun _ fn _ => fn == "name" || fn == "id" }

def witnessInfoNameId : Info :=
  { rpc_session := some witnessNameIdSession, field_name := "name", db := fun _ => [] }

/-- C5 witness: the theorem applied to an invalid entry and to a
three-entry list whose middle column is denied. -/
theorem sort_compilation_witness :
    (∃ msg, SQLAlchemyConnectionField.query_sort witnessModel witnessInfoNoSession
      witnessQuery [{ field := "created_at", direction := none }] = Except.error msg) ∧
    SQLAlchemyConnectionField.query_sort witnessModel witnessInfoNameId witnessQuery
      [{ field := "name", direction := none },
       { field := "created", direction := some "desc" },
       { field := "id", direction := some "desc" }] =
      Except.ok { witnessQuery with order_by_clauses := [("name", false), ("id", true)] } := by
  constructor
  · exact sort_compilation.1 witnessModel witnessInfoNoSession witnessQuery
      [{ field := "created_at", direction := none }]
      { field := "created_at", direction := none } (by simp) (by decide)
  · have h := sort_compilation.2 witnessModel witnessInfoNameId witnessQuery
      [{ field := "name", direction := none },
       { field := "created", direction := some "desc" },
       { field := "id", direction := some "desc" }] (by decide)
    rw [h]
    rfl

/-- Normalization: a falsy and branch (absent or empty) behaves as
absent. -/
theorem query_filter_core_falsy_and (m : Model) (info : Info)
    (a OR : Option (List FilterInput)) (field : Option String)
    (v : Option Value) (op : Option String) (ha : isTruthyList a = false) :
    SQLAlchemyConnectionField.query_filter_core m info (FilterInput.mk a OR field v op) =
      SQLAlchemyConnectionField.query_filter_core m info
        (FilterInput.mk none OR field v op) := by
  cases a with
  | none => rfl
  | some l =>
      cases l with
      | nil => exact query_filter_core_and_empty_eq m info OR field v op
      | cons x xs => simp [isTruthyList] at ha

/-- Normalization: a falsy or branch (absent or empty) behaves as
absent. -/
theorem query_filter_core_falsy_or (m : Model) (info : Info)
    (AND o : Option (List FilterInput)) (field : Option String)
    (v : Option Value) (op : Option String) (ho : isTruthyList o = false) :
    SQLAlchemyConnectionField.query_filter_core m info (FilterInput.mk AND o field v op) =
      SQLAlchemyConnectionField.query_filter_core m info
        (FilterInput.mk AND none field v op) := by
  cases o with
  | none => rfl
  | some l =>
      cases l with
      | nil => exact query_filter_core_or_empty_eq m info AND field v op
      | cons x xs => simp [isTruthyList] at ho

/-- A falsy field entry (absent or empty string) passes the accumulator
through unchanged. -/
theorem query_filter_field_branch_falsy (m : Model) (info : Info) (field : Option String)
    (v : Option Value) (op : Option String) (sf2 : Option SqlFilter)
    (hf : isTruthyStr field = false) :
    SQLAlchemyConnectionField.query_filter_field_branch m info field v op sf2 =
      Except.ok sf2 := by
  cases field with
  | none => rfl
  | some s =>
      have hs : s = "" := by
        by_contra hne
        simp [isTruthyStr, hne] at hf
      subst hs
      rfl

/-- Count of populated branches of a filter node under Python truthiness
(absent keys, empty lists and empty strings are not populated). -/
def populatedBranchCount : FilterInput → Nat
  | FilterInput.mk a o f _ _ =>
      (if isTruthyList a then 1 else 0) + (if isTruthyList o then 1 else 0) +
        (if isTruthyStr f then 1 else 0)

/-- C10: an and or or branch populated with an empty list is treated as
absent; a node combining an empty and branch with a field leaf compiles
the leaf without the mutual-exclusivity error; a node with no populated
branch compiles without error to no predicate; and a populated and branch
all of whose children are dropped compiles without error to the empty
conjunction. -/
theorem empty_filter_branches_treated_absent :
    (∀ (m : Model) (info : Info) (OR : Option (List FilterInput)) (field : Option String)
        (v : Option Value) (op : Option String),
        SQLAlchemyConnectionField.query_filter_core m info
            (FilterInput.mk (some []) OR field v op) =
          SQLAlchemyConnectionField.query_filter_core m info
            (FilterInput.mk none OR field v op)) ∧
    (∀ (m : Model) (info : Info) (AND : Option (List FilterInput)) (field : Option String)
        (v : Option Value) (op : Option String),
        SQLAlchemyConnectionField.query_filter_core m info
            (FilterInput.mk AND (some []) field v op) =
          SQLAlchemyConnectionField.query_filter_core m info
            (FilterInput.mk AND none field v op)) ∧
    (∀ (m : Model) (info : Info) (gql_field : String) (v : Option Value)
        (op : Option String),
        ¬ gql_field = "" →
        validOperatorName (op.getD "eq") = true →
        '_' ∉ gql_field.data →
        parse_case_camel_to_snake gql_field ∈ m.columns →
        AuthorizationMiddleware.info_has_read_prop_access info m
          (some (parse_case_camel_to_snake gql_field)) none = true →
        SQLAlchemyConnectionField.query_filter_core m info
            (FilterInput.mk (some []) none (some gql_field) v op) =
          Except.ok (some (SqlFilter.cmp (op.getD "eq")
            (parse_case_camel_to_snake gql_field) v))) ∧
    (∀ (m : Model) (info : Info) (a o : Option (List FilterInput)) (f : Option String)
        (v : Option Value) (op : Option String),
        isTruthyList a = false → isTruthyList o = false → isTruthyStr f = false →
        SQLAlchemyConnectionField.query_filter_core m info (FilterInput.mk a o f v op) =
          Except.ok none) ∧
    (∀ (m : Model) (info : Info) (x : FilterInput) (xs : List FilterInput)
        (v : Option Value) (op : Option String),
        SQLAlchemyConnectionField.query_filter_list m info (x :: xs) = Except.ok [] →
        SQLAlchemyConnectionField.query_filter_core m info
            (FilterInput.mk (some (x :: xs)) none none v op) =
          Except.ok (some (SqlFilter.and_ []))) := by
  refine ⟨?_, ?_, ?_, ?_, ?_⟩
  · exact query_filter_core_and_empty_eq
  · exact query_filter_core_or_empty_eq
  · intro m info gql_field v op hgf hop hun hcol hauth
    rw [query_filter_core_and_empty_eq]
    rw [query_filter_core_leaf m info gql_field v op hgf hop hun hcol]
    rw [if_pos hauth]
  · intro m info a o f v op ha ho hf
    rw [query_filter_core_falsy_and m info a o f v op ha]
    rw [query_filter_core_falsy_or m info none o f v op ho]
    rw [query_filter_core_falsy_eq]
    exact query_filter_field_branch_falsy m info f v op none hf
  · intro m info x xs v op hl
    rw [query_filter_core_and_eq, hl]
    rfl

/-- C10 witness: the theorem applied to a concrete empty and branch next
to a field leaf, a node with nothing populated, and an and branch whose
single child column is denied. -/
theorem empty_filter_branches_witness :
    SQLAlchemyConnectionField.query_filter_core witnessModel witnessInfoNoSession
      (FilterInput.mk (some []) none (some "name") (some (Value.int 3)) none) =
      Except.ok (some (SqlFilter.cmp "eq" "name" (some (Value.int 3)))) ∧
    SQLAlchemyConnectionField.query_filter_core witnessModel witnessInfoNoSession
      (FilterInput.mk (some []) (some []) (some "") none none) = Except.ok none ∧
    SQLAlchemyConnectionField.query_filter_core witnessModel witnessInfoDenied
      (FilterInput.mk (some [FilterInput.mk none none (some "name") none none]) none none
        none none) =
      Except.ok (some (SqlFilter.and_ [])) := by
  refine ⟨?_, ?_, ?_⟩
  · exact empty_filter_branches_treated_absent.2.2.1 witnessModel witnessInfoNoSession
      "name" (some (Value.int 3)) none (by decide) (by decide) (by decide) (by decide) rfl
  · exact empty_filter_branches_treated_absent.2.2.2.1 witnessModel witnessInfoNoSession
      (some []) (some []) (some "") none none rfl rfl rfl
  · exact empty_filter_branches_treated_absent.2.2.2.2 witnessModel witnessInfoDenied
      (FilterInput.mk none none (some "name") none none) [] none none rfl

/-- Inversion of list truthiness. -/
theorem isTruthyList_eq_true {α : Type} {a : Option (List α)}
    (h : isTruthyList a = true) : ∃ x xs, a = some (x :: xs) := by
  cases a with
  | none => simp [isTruthyList] at h
  | some l =>
      cases l with
      | nil => simp [isTruthyList] at h
      | cons x xs => exact ⟨x, xs, rfl⟩

/-- Inversion of string truthiness. -/
theorem isTruthyStr_eq_true {f : Option String} (h : isTruthyStr f = true) :
    ∃ s, f = some s ∧ ¬ s = "" := by
  cases f with
  | none => simp [isTruthyStr] at h
  | some s =>
      refine ⟨s, rfl, fun hs => ?_⟩
      subst hs
      simp [isTruthyStr] at h

/-- Bind of a success in the exception monad. -/
theorem except_ok_bind {α β : Type} (a : α) (g : α → Except String β) :
    (Except.ok a >>= g) = g a := rfl

/-- Bind of an error in the exception monad. -/
theorem except_error_bind {α β : Type} (e : String) (g : α → Except String β) :
    ((Except.error e : Except String α) >>= g) = Except.error e := rfl

/-- A truthy field entry arriving at a nonempty accumulator raises the
mutual-exclusivity error. -/
theorem query_filter_field_branch_mutex (m : Model) (info : Info) (s : String)
    (v : Option Value) (op : Option String) (sf : SqlFilter) (hs : ¬ s = "") :
    SQLAlchemyConnectionField.query_filter_field_branch m info (some s) v op (some sf) =
      Except.error mutexErrorMsg := by
  rw [SQLAlchemyConnectionField.query_filter_field_branch]
  rw [if_neg hs]
  rfl

/-- Compilation of a node with at least two populated branches always
raises: a populated and branch next to a populated or branch or field, or
a populated or branch next to a populated field, ends in the
mutual-exclusivity error once the earlier branch has compiled (and in the
child error when a child raises first). -/
theorem query_filter_core_error_of_multi (m : Model) (info : Info) (f : FilterInput)
    (h : 2 ≤ populatedBranchCount f) :
    ∃ msg, SQLAlchemyConnectionField.query_filter_core m info f = Except.error msg := by
  cases f with
  | mk a o fld v op =>
      by_cases ta : isTruthyList a = true
      · obtain ⟨x, xs, rfl⟩ := isTruthyList_eq_true ta
        rw [query_filter_core_and_eq]
        cases hl : SQLAlchemyConnectionField.query_filter_list m info (x :: xs) with
        | error e => exact ⟨e, by rw [except_error_bind]⟩
        | ok children =>
            rw [except_ok_bind]
            by_cases tOr : isTruthyList o = true
            · obtain ⟨y, ys, rfl⟩ := isTruthyList_eq_true tOr
              exact ⟨mutexErrorMsg, rfl⟩
            · have hOrF : isTruthyList o = false := Bool.eq_false_iff.mpr tOr
              have tf : isTruthyStr fld = true := by
                by_contra hF
                have hFf : isTruthyStr fld = false := Bool.eq_false_iff.mpr hF
                simp [populatedBranchCount, ta, hOrF, hFf] at h
              obtain ⟨s, rfl, hs⟩ := isTruthyStr_eq_true tf
              refine ⟨mutexErrorMsg, ?_⟩
              cases o with
              | none =>
                  show SQLAlchemyConnectionField.query_filter_field_branch m info (some s)
                    v op (some (SqlFilter.and_ children)) = Except.error mutexErrorMsg
                  exact query_filter_field_branch_mutex m info s v op _ hs
              | some l =>
                  cases l with
                  | nil =>
                      show SQLAlchemyConnectionField.query_filter_field_branch m info
                        (some s) v op (some (SqlFilter.and_ children)) =
                        Except.error mutexErrorMsg
                      exact query_filter_field_branch_mutex m info s v op _ hs
                  | cons y ys => simp [isTruthyList] at hOrF
      · have ha : isTruthyList a = false := Bool.eq_false_iff.mpr ta
        have tOr : isTruthyList o = true := by
          by_contra hF
          have hOrF : isTruthyList o = false := Bool.eq_false_iff.mpr hF
          rcases Bool.eq_false_or_eq_true (isTruthyStr fld) with h2 | h2 <;>
            simp [populatedBranchCount, ha, hOrF, h2] at h
        have tf : isTruthyStr fld = true := by
          by_contra hF
          have hFf : isTruthyStr fld = false := Bool.eq_false_iff.mpr hF
          simp [populatedBranchCount, ha, tOr, hFf] at h
        obtain ⟨y, ys, rfl⟩ := isTruthyList_eq_true tOr
        obtain ⟨s, rfl, hs⟩ := isTruthyStr_eq_true tf
        rw [query_filter_core_falsy_and m info a _ _ v op ha]
        rw [query_filter_core_or_eq]
        cases hl : SQLAlchemyConnectionField.query_filter_list m info (y :: ys) with
        | error e => exact ⟨e, by rw [except_error_bind]⟩
        | ok children =>
            rw [except_ok_bind]
            exact ⟨mutexErrorMsg, query_filter_field_branch_mutex m info s v op _ hs⟩

/-- Well-formedness of a filter node with exactly one populated branch:
a valid leaf (nonempty field, valid or omitted operator, no underscore,
known column), or a populated and / or branch all of whose children are
themselves well-formed, next to falsy siblings. -/
inductive FilterWF (m : Model) : FilterInput → Prop where
  | leaf (a o : Option (List FilterInput)) (s : String) (v : Option Value)
      (op : Option String)
      (ha : isTruthyList a = false) (ho : isTruthyList o = false)
      (hs : ¬ s = "")
      (hop : validOperatorName (op.getD "eq") = true)
      (hun : '_' ∉ s.data)
      (hcol : parse_case_camel_to_snake s ∈ m.columns) :
      FilterWF m (FilterInput.mk a o (some s) v op)
  | branch_and (x : FilterInput) (xs : List FilterInput)
      (o : Option (List FilterInput)) (fld : Option String) (v : Option Value)
      (op : Option String)
      (ho : isTruthyList o = false) (hf : isTruthyStr fld = false)
      (hall : ∀ c ∈ x :: xs, FilterWF m c) :
      FilterWF m (FilterInput.mk (some (x :: xs)) o fld v op)
  | branch_or (a : Option (List FilterInput)) (y : FilterInput)
      (ys : List FilterInput) (fld : Option String) (v : Option Value)
      (op : Option String)
      (ha : isTruthyList a = false) (hf : isTruthyStr fld = false)
      (hall : ∀ c ∈ y :: ys, FilterWF m c) :
      FilterWF m (FilterInput.mk a (some (y :: ys)) fld v op)

/-- Truthiness of a populated list entry. -/
theorem isTruthyList_cons {α : Type} (x : α) (xs : List α) :
    isTruthyList (some (x :: xs)) = true := rfl

/-- A well-formed node has exactly one populated branch. -/
theorem FilterWF.count_eq_one {m : Model} {f : FilterInput} (h : FilterWF m f) :
    populatedBranchCount f = 1 := by
  cases h with
  | leaf a o s v op ha ho hs hop hun hcol =>
      simp [populatedBranchCount, ha, ho, isTruthyStr, hs]
  | branch_and x xs o fld v op ho hf hall =>
      simp [populatedBranchCount, isTruthyList_cons, ho, hf]
  | branch_or a y ys fld v op ha hf hall =>
      simp [populatedBranchCount, isTruthyList_cons, ha, hf]

/-- Child lists all of whose members compile successfully compile
successfully as a list. -/
theorem query_filter_list_ok (m : Model) (info : Info) (l : List FilterInput)
    (h : ∀ c ∈ l, ∃ r, SQLAlchemyConnectionField.query_filter_core m info c =
      Except.ok r) :
    ∃ rs, SQLAlchemyConnectionField.query_filter_list m info l = Except.ok rs := by
  induction l with
  | nil => exact ⟨[], rfl⟩
  | cons c cs ih =>
      obtain ⟨r, hr⟩ := h c (by simp)
      obtain ⟨rs, hrs⟩ := ih (fun d hd => h d (by simp [hd]))
      rw [query_filter_list_cons_eq, hr, except_ok_bind, hrs, except_ok_bind]
      cases r with
      | some sf => exact ⟨sf :: rs, rfl⟩
      | none => exact ⟨rs, rfl⟩

/-- Compilation of a well-formed node always succeeds. -/
theorem query_filter_core_ok_of_wf (m : Model) (info : Info) (f : FilterInput)
    (h : FilterWF m f) :
    ∃ r, SQLAlchemyConnectionField.query_filter_core m info f = Except.ok r := by
  induction h with
  | leaf a o s v op ha ho hs hop hun hcol =>
      rw [query_filter_core_falsy_and m info a o (some s) v op ha]
      rw [query_filter_core_falsy_or m info none o (some s) v op ho]
      rw [query_filter_core_leaf m info s v op hs hop hun hcol]
      by_cases hauth : AuthorizationMiddleware.info_has_read_prop_access info m
          (some (parse_case_camel_to_snake s)) none = true
      · rw [if_pos hauth]
        exact ⟨_, rfl⟩
      · rw [if_neg hauth]
        exact ⟨none, rfl⟩
  | branch_and x xs o fld v op ho hf hall ih =>
      obtain ⟨rs, hrs⟩ := query_filter_list_ok m info (x :: xs) ih
      rw [query_filter_core_and_eq, hrs, except_ok_bind]
      cases o with
      | none =>
          refine ⟨some (SqlFilter.and_ rs), ?_⟩
          show SQLAlchemyConnectionField.query_filter_field_branch m info fld v op
            (some (SqlFilter.and_ rs)) = Except.ok (some (SqlFilter.and_ rs))
          exact query_filter_field_branch_falsy m info fld v op _ hf
      | some l =>
          cases l with
          | nil =>
              refine ⟨some (SqlFilter.and_ rs), ?_⟩
              show SQLAlchemyConnectionField.query_filter_field_branch m info fld v op
                (some (SqlFilter.and_ rs)) = Except.ok (some (SqlFilter.and_ rs))
              exact query_filter_field_branch_falsy m info fld v op _ hf
          | cons y ys => simp [isTruthyList] at ho
  | branch_or a y ys fld v op ha hf hall ih =>
      obtain ⟨rs, hrs⟩ := query_filter_list_ok m info (y :: ys) ih
      rw [query_filter_core_falsy_and m info a _ fld v op ha]
      rw [query_filter_core_or_eq, hrs, except_ok_bind]
      exact ⟨_, query_filter_field_branch_falsy m info fld v op _ hf⟩

/-- A node with exactly one populated branch whose leaf is invalid. -/
def cexOnlyFieldFilter : FilterInput :=
  FilterInput.mk none none (some "created_at") (some (Value.int 0)) none

/-- C3 counterexample: a node with exactly one populated branch (a field
leaf whose name contains an underscore) raises instead of compiling, so
exactly one populated branch does not suffice for success. -/
theorem filter_exclusivity_counterexample :
    populatedBranchCount cexOnlyFieldFilter = 1 ∧
    SQLAlchemyConnectionField.query_filter_core witnessModel witnessInfoNoSession
      cexOnlyFieldFilter = Except.error ("invalid filter field: " ++ "created_at") :=
  ⟨rfl, rfl⟩

/-- C3 amended: a node with two or more populated branches always raises;
a well-formed node (exactly one populated branch whose content is valid,
recursively) always compiles. -/
theorem filter_branch_exclusivity_amended :
    (∀ (m : Model) (info : Info) (f : FilterInput),
        2 ≤ populatedBranchCount f →
        ∃ msg, SQLAlchemyConnectionField.query_filter_core m info f =
          Except.error msg) ∧
    (∀ (m : Model) (f : FilterInput), FilterWF m f → populatedBranchCount f = 1) ∧
    (∀ (m : Model) (info : Info) (f : FilterInput), FilterWF m f →
        ∃ r, SQLAlchemyConnectionField.query_filter_core m info f = Except.ok r) :=
  ⟨query_filter_core_error_of_multi, fun _ _ h => h.count_eq_one,
    query_filter_core_ok_of_wf⟩

/-- C3 amended witness: the theorem applied to a concrete node with a
populated and branch next to a populated field, and to a concrete
well-formed leaf. -/
theorem filter_branch_exclusivity_witness :
    (∃ msg, SQLAlchemyConnectionField.query_filter_core witnessModel witnessInfoNoSession
      (FilterInput.mk (some [FilterInput.mk none none (some "name") none none]) none
        (some "id") none none) = Except.error msg) ∧
    (∃ r, SQLAlchemyConnectionField.query_filter_core witnessModel witnessInfoNoSession
      (FilterInput.mk none none (some "name") none none) = Except.ok r) := by
  constructor
  · exact filter_branch_exclusivity_amended.1 witnessModel witnessInfoNoSession _
      (by decide)
  · exact filter_branch_exclusivity_amended.2.2 witnessModel witnessInfoNoSession _
      (FilterWF.leaf none none "name" none none rfl rfl (by decide) (by decide)
        (by decide) (by decide))

/-- A digit character encodes a value below ten. -/
theorem digitVal_lt (c : Char) (h : isDigitChar c = true) : digitVal c < 10 := by
  simp [isDigitChar] at h
  simp [digitVal]
  omega

/-- Rendering the value of a digit character recovers the character. -/
theorem charOfNat_digit (c : Char) (h : isDigitChar c = true) :
    Char.ofNat (digitVal c + 48) = c := by
  simp [isDigitChar] at h
  have hv : digitVal c + 48 = c.toNat := by
    simp [digitVal]
    omega
  rw [hv]
  exact Char.ofNat_toNat c

/-- Zero-padded rendering inverts digit-string reading at the string
length. -/
theorem padDigits_readDigitsVal (ds : List Char) (h : ∀ c ∈ ds, isDigitChar c = true) :
    padDigits ds.length (readDigitsVal ds) = ds := by
  induction ds using List.reverseRecOn with
  | nil => rfl
  | append_singleton l c ih =>
      have hc : isDigitChar c = true := h c (by simp)
      have hl : ∀ x ∈ l, isDigitChar x = true := fun x hx => h x (by simp [hx])
      have hr : readDigitsVal (l ++ [c]) = readDigitsVal l * 10 + digitVal c := by
        simp [readDigitsVal, List.foldl_append]
      have hd : digitVal c < 10 := digitVal_lt c hc
      have hq : (readDigitsVal l * 10 + digitVal c) / 10 = readDigitsVal l := by omega
      have hm : (readDigitsVal l * 10 + digitVal c) % 10 = digitVal c := by omega
      simp only [List.length_append, List.length_cons, List.length_nil, hr, padDigits,
        hq, hm]
      rw [ih hl, charOfNat_digit c hc]

/-- Inversion of exact digit consumption. -/
theorem takeExactDigits_some {n : Nat} {cs ds rest : List Char}
    (h : takeExactDigits n cs = some (ds, rest)) :
    cs = ds ++ rest ∧ ds.length = n ∧ ∀ c ∈ ds, isDigitChar c = true := by
  simp only [takeExactDigits] at h
  split at h
  · rename_i hcond
    simp only [Option.some.injEq, Prod.mk.injEq] at h
    obtain ⟨h1, h2⟩ := h
    subst h1
    subst h2
    refine ⟨(List.take_append_drop n cs).symm, hcond.1, ?_⟩
    intro c hc
    exact List.all_eq_true.mp hcond.2 c hc
  · exact Option.noConfusion h

/-- Inversion of literal consumption. -/
theorem expectChar_some {c : Char} {cs rest : List Char}
    (h : expectChar c cs = some rest) : cs = c :: rest := by
  cases cs with
  | nil => exact Option.noConfusion h
  | cons x xs =>
      simp only [expectChar] at h
      split at h
      · rename_i hx
        cases h
        rw [hx]
      · exact Option.noConfusion h

/-- Rendering inverts parsing for any token list. -/
theorem renderToks_parseToks (ts : List FmtTok) :
    ∀ (cs : List Char) (vs : List Nat) (rest : List Char),
      parseToks ts cs = some (vs, rest) → renderToks ts vs ++ rest = cs := by
  induction ts with
  | nil =>
      intro cs vs rest h
      simp only [parseToks, Option.some.injEq, Prod.mk.injEq] at h
      obtain ⟨rfl, rfl⟩ := h
      rfl
  | cons t ts ih =>
      intro cs vs rest h
      cases t with
      | digits n =>
          simp only [parseToks] at h
          cases hd : takeExactDigits n cs with
          | none => rw [hd] at h; exact Option.noConfusion h
          | some p =>
              obtain ⟨ds, r⟩ := p
              rw [hd] at h
              dsimp only [] at h
              cases hp : parseToks ts r with
              | none => rw [hp] at h; exact Option.noConfusion h
              | some q =>
                  obtain ⟨vs1, rest1⟩ := q
                  rw [hp] at h
                  simp only [Option.some.injEq, Prod.mk.injEq] at h
                  obtain ⟨hvs, hrest⟩ := h
                  subst hvs
                  subst hrest
                  obtain ⟨hcs, hlen, hdig⟩ := takeExactDigits_some hd
                  have hpad : padDigits n (readDigitsVal ds) = ds := by
                    rw [← hlen]
                    exact padDigits_readDigitsVal ds hdig
                  simp only [renderToks, hpad, List.append_assoc]
                  rw [ih r vs1 _ hp, hcs]
      | lit c =>
          simp only [parseToks] at h
          cases he : expectChar c cs with
          | none => rw [he] at h; exact Option.noConfusion h
          | some r =>
              rw [he] at h
              dsimp only [] at h
              rw [expectChar_some he]
              simp only [renderToks, List.cons_append]
              rw [ih r vs _ h]

/-- String extensionality on the character list. -/
theorem string_data_ext {a b : String} (h : a.data = b.data) : a = b := by
  cases a
  cases b
  cases h
  rfl

/-- Parsing in the exact wire format then rendering recovers the original
string. -/
theorem strptime_strftime_roundtrip (s : String) (dt : PyDateTime)
    (h : strptime_iso_fmt s = some dt) : strftime_iso_fmt dt = s := by
  simp only [strptime_iso_fmt] at h
  split at h
  · rename_i y mo d hr mi se us heq
    split at h
    · have hdt : dt =
          { year := y, month := mo, day := d, hour := hr, minute := mi,
            second := se, microsecond := us } := (Option.some.inj h).symm
      subst hdt
      apply string_data_ext
      have hrt := renderToks_parseToks isoFormatToks s.data
        [y, mo, d, hr, mi, se, us] [] heq
      rw [List.append_nil] at hrt
      exact hrt
    · exact Option.noConfusion h
  · exact Option.noConfusion h

/-- C7: parsing a string in the exact format %Y-%m-%dT%H:%M:%S.%f with
the DateTime scalar (as a value or as a string literal) and then
serializing the result yields a timestamp whose wire rendering is the
original string; serialize itself passes the timestamp through
unchanged. -/
theorem datetime_round_trip :
    (∀ (s : String) (dt : PyDateTime),
        DateTimeScalar.parse_value s = some dt →
        strftime_iso_fmt (DateTimeScalar.serialize dt) = s) ∧
    (∀ (s : String) (dt : PyDateTime),
        DateTimeScalar.parse_literal (AstNode.stringValue s) = some dt →
        strftime_iso_fmt (DateTimeScalar.serialize dt) = s) ∧
    (∀ dt : PyDateTime, DateTimeScalar.serialize dt = dt) :=
  ⟨fun s dt h => strptime_strftime_roundtrip s dt h,
   fun s dt h => strptime_strftime_roundtrip s dt h,
   fun _ => rfl⟩

/-- C7 witness: the theorem applied to a concrete timestamp string. -/
theorem datetime_round_trip_witness :
    DateTimeScalar.parse_value "2023-05-17T12:34:56.000123" =
      some { year := 2023, month := 5, day := 17, hour := 12, minute := 34,
             second := 56, microsecond := 123 } ∧
    strftime_iso_fmt (DateTimeScalar.serialize
      { year := 2023, month := 5, day := 17, hour := 12, minute := 34,
        second := 56, microsecond := 123 }) = "2023-05-17T12:34:56.000123" :=
  ⟨by decide, datetime_round_trip.1 "2023-05-17T12:34:56.000123" _ (by decide)⟩

/-- C6: the connection resolver uses the default model query (with filter
and sort) when the inner resolver returns null and totals its count;
applies filter then sort to a returned lazy query and totals its count;
uses a materialized sequence as is (no filter/sort) and totals its
length; and relay slicing returns the slice selected by after and first
while the reported total passes through unchanged, independent of the
slice. -/
theorem connection_resolution :
    (∀ (resolver : RootVal → Info → ConnArgs → ResolverResult) (m : Model)
        (root : RootVal) (info : Info) (args : ConnArgs) (q : SAQuery),
        resolver root info args = ResolverResult.none_ →
        SQLAlchemyConnectionField.get_query m info args = Except.ok q →
        SQLAlchemyConnectionField.connection_resolver resolver m root info args =
          Except.ok (connection_from_list_slice q.results args.first args.after
            q.count)) ∧
    (∀ (resolver : RootVal → Info → ConnArgs → ResolverResult) (m : Model)
        (root : RootVal) (info : Info) (args : ConnArgs) (q0 q : SAQuery),
        resolver root info args = ResolverResult.query q0 →
        SQLAlchemyConnectionField.query_shim m info q0 args = Except.ok q →
        SQLAlchemyConnectionField.connection_resolver resolver m root info args =
          Except.ok (connection_from_list_slice q.results args.first args.after
            q.count)) ∧
    (∀ (resolver : RootVal → Info → ConnArgs → ResolverResult) (m : Model)
        (root : RootVal) (info : Info) (args : ConnArgs) (xs : List Row),
        resolver root info args = ResolverResult.list xs →
        SQLAlchemyConnectionField.connection_resolver resolver m root info args =
          Except.ok (connection_from_list_slice xs args.first args.after xs.length)) ∧
    (∀ (xs : List Row) (first after : Option Nat) (total : Nat),
        (connection_from_list_slice xs first after total).total = total ∧
        (connection_from_list_slice xs first after total).length = total ∧
        (connection_from_list_slice xs first after total).edges.map Edge.node =
          (match first with
            | some n => (xs.drop (match after with | some a => a + 1 | none => 0)).take n
            | none => xs.drop (match after with | some a => a + 1 | none => 0))) := by
  refine ⟨?_, ?_, ?_, ?_⟩
  · intro resolver m root info args q hres hq
    simp only [SQLAlchemyConnectionField.connection_resolver, hres]
    rw [hq, except_ok_bind]
    rfl
  · intro resolver m root info args q0 q hres hq
    simp only [SQLAlchemyConnectionField.connection_resolver, hres]
    rw [hq, except_ok_bind]
    rfl
  · intro resolver m root info args xs hres
    simp only [SQLAlchemyConnectionField.connection_resolver, hres]
    rfl
  · intro xs first after total
    refine ⟨rfl, rfl, ?_⟩
    simp only [connection_from_list_slice, List.map_map]
    have hcomp : ∀ k : Nat, (Edge.node ∘ fun p : Nat × Row =>
        ({ node := p.2, cursor := k + p.1 } : Edge)) = Prod.snd := by
      intro k
      funext p
      rfl
    cases first with
    | none => rw [hcomp, List.enum_map_snd]
    | some n => rw [hcomp, List.enum_map_snd]

/-- Concrete rows and a database for the C6 witness. -/
def witnessRowA : Row := { attrs := [("id", Value.int 1)] }

def witnessRowB : Row := { attrs := [("id", Value.int 2)] }

def witnessInfoRows : Info :=
  { rpc_session := none, field_name := "campaigns",
    db := fun _ => [witnessRowA, witnessRowB] }

def witnessConnectionAll : Connection :=
  { edges := [{ node := witnessRowA, cursor := 0 }, { node := witnessRowB, cursor := 1 }],
    total := 2, length := 2 }

def witnessConnectionSlice : Connection :=
  { edges := [{ node := witnessRowB, cursor := 1 }], total := 3, length := 3 }

/-- C6 witness: the theorem applied to a concrete database with a null
resolver result and to a materialized list with pagination. -/
theorem connection_resolution_witness :
    SQLAlchemyConnectionField.connection_resolver
      (fun _ _ _ => ResolverResult.none_) witnessModel (RootVal.plain Value.null)
      witnessInfoRows { filter := none, sort := none, first := none, after := none } =
      Except.ok witnessConnectionAll ∧
    SQLAlchemyConnectionField.connection_resolver
      (fun _ _ _ => ResolverResult.list [witnessRowA, witnessRowB, witnessRowA])
      witnessModel (RootVal.plain Value.null) witnessInfoRows
      { filter := none, sort := none, first := some 1, after := some 0 } =
      Except.ok witnessConnectionSlice := by
  constructor
  · have h := connection_resolution.1 (fun _ _ _ => ResolverResult.none_) witnessModel
      (RootVal.plain Value.null) witnessInfoRows
      { filter := none, sort := none, first := none, after := none }
      (witnessModel.default_query witnessInfoRows) rfl rfl
    rw [h]
    rfl
  · have h := connection_resolution.2.2.1
      (fun _ _ _ => ResolverResult.list [witnessRowA, witnessRowB, witnessRowA])
      witnessModel (RootVal.plain Value.null) witnessInfoRows
      { filter := none, sort := none, first := some 1, after := some 0 }
      [witnessRowA, witnessRowB, witnessRowA] rfl
    rw [h]
    rfl
